/-
Verification development for the O1AgenticPlanner order-fulfillment system.

The development shallowly embeds the two execution-loop variants of the
repository (the prototype module `src/prototype/order_fulfillment.py` and the
refactored `src/order_fulfillment/executor.py`), the function registry
(`registry.py`), the business functions (`functions.py`, identical to the
prototype's module-level functions), and plan persistence (`plans.py`).

Modelling conventions:
  - Python's unbounded integers are `Int`; float literals (supplier unit
    costs) are `Rat`.
  - Python dicts whose keys are strings are association lists; assignment
    `d[k] = v` is `setA` (replace in place, else append), matching
    insertion-order semantics of CPython dicts.
  - `json.loads` / `json.dumps` are external library calls; they are passed
    to the loop as an oracle record `PyJson`.  A concrete instance
    `sampleJson` is used for closed-theorem instances: its `dumps` agrees
    with `json.dumps` on every non-nested value produced in those instances.
  - `datetime.now()` is an external input threaded as a `now : String`
    argument.
  - Events appended to the observability log (`message_list`) mirror the
    dictionaries the source appends; the `context` event carries the context
    value itself (the source stores a `json.dumps` rendering of it).
  - The lazily-created context keys (`purchase_orders`,
    `scheduled_processing`, `customer_notifications`) are modelled as
    always-present lists that start empty, which is observationally the same
    as `context.get(key, {})` followed by assignment.
-/
import Mathlib

set_option maxRecDepth 16384

namespace OrderFulfillment

/-! ## JSON-like values and Python exceptions -/

/-- A JSON-like Python value (the payloads business functions build). -/
inductive Value where
  | vnull : Value
  | vbool : Bool → Value
  | vint : Int → Value
  | vnum : Rat → Value
  | vstr : String → Value
  | varr : List Value → Value
  | vobj : List (String × Value) → Value

/-- Python exceptions observable in this system. -/
inductive PyErr where
  | keyError : String → PyErr
  | typeError : String → PyErr
  | jsonDecodeError : PyErr
deriving DecidableEq

/-- Model of Python `str(e)` on the exceptions above (`str(KeyError(k))` is
the repr of the key). -/
def pyExcStr : PyErr → String
  | PyErr.keyError k => "\x27" ++ k ++ "\x27"
  | PyErr.typeError m => m
  | PyErr.jsonDecodeError => "Expecting value"

/-- Parsed keyword arguments of a tool call (`json.loads` result). -/
abbrev Args := List (String × Value)

/-! ## Python string primitives

Structurally recursive models of the Python string methods the source uses
(`str.split`, `in`, `str.replace`, `str.strip`), over the character list of
the string. -/

/-- Drop a matching pattern from the front of a character list. -/
def dropPre : List Char → List Char → Option (List Char)
  | [], rest => some rest
  | _ :: _, [] => none
  | a :: as, b :: bs => if a == b then dropPre as bs else none

/-- Split on every non-overlapping occurrence of a non-empty separator, left
to right (fuel-driven; the fuel is the string length plus one, which always
suffices). -/
def splitCharsF (sep : List Char) : Nat → List Char → List Char → List (List Char)
  | _, [], acc => [acc.reverse]
  | 0, s, acc => [acc.reverse ++ s]
  | Nat.succ n, c :: cs, acc =>
    match dropPre sep (c :: cs) with
    | some rest => acc.reverse :: splitCharsF sep n rest []
    | none => splitCharsF sep n cs (c :: acc)

/-- Python `s.split(sep)` for a non-empty separator. -/
def pySplit (s sep : String) : List String :=
  (splitCharsF sep.data (s.data.length + 1) s.data []).map String.mk

/-- Python `pat in s` for a non-empty pattern. -/
def pyContains (s pat : String) : Bool :=
  (pySplit s pat).length != 1

/-- Python `s.replace(a, b)` for a non-empty pattern. -/
def pyReplace (s a b : String) : String :=
  String.mk (List.intercalate b.data (splitCharsF a.data (s.data.length + 1) s.data []))

/-- The whitespace characters Python `str.strip` removes. -/
def pyIsSpace (c : Char) : Bool :=
  c == ' ' || c == '\t' || c == '\n' || c == '\r' || c == '\x0b' || c == '\x0c'

/-- Python `s.strip()`. -/
def pyTrim (s : String) : String :=
  String.mk (((s.data.dropWhile pyIsSpace).reverse.dropWhile pyIsSpace).reverse)

/-! ## Business state (the `context` dictionary) -/

structure SupplierItem where
  unit_cost : Rat
  min_order : Int

structure Supplier where
  name : String
  lead_time_days : Int
  items : List (String × SupplierItem)

structure PurchaseOrder where
  supplier_id : String
  sku : String
  quantity : Int
  expected_delivery : Int
  lead_time_days : Int

structure ScheduledJob where
  priority : String
  status : String
  scheduled_at : String

structure CustomerNote where
  customer_id : String
  message : String
  sent_at : String

/-- The shared mutable business state (the `context` dict of the source). -/
structure Ctx where
  inventory : List (String × Int)
  orders : Value
  suppliers : List (String × Supplier)
  processing : Int
  shipping : Int
  purchase_orders : List (String × PurchaseOrder)
  scheduled_processing : List (String × ScheduledJob)
  customer_notifications : List (String × CustomerNote)

/-- Python dict assignment `d[k] = x`: replace in place, else append. -/
def setA {β : Type} (l : List (String × β)) (k : String) (x : β) :
    List (String × β) :=
  match l with
  | [] => [(k, x)]
  | (k', v) :: rest => if k' == k then (k, x) :: rest else (k', v) :: setA rest k x

/-! ## The business functions (`functions.py` / prototype module level) -/

/-- Source `check_inventory`: report the inventory level of a SKU
(`context['inventory'].get(sku, 0)`). -/
def check_inventory (sku : String) (ctx : Ctx) : Except PyErr (Value × Ctx) :=
  Except.ok
    (Value.vobj [("sku", Value.vstr sku),
                 ("quantity", Value.vint ((ctx.inventory.lookup sku).getD 0))],
     ctx)

/-- Source `get_pending_orders`: return `context['orders']`. -/
def get_pending_orders (ctx : Ctx) : Except PyErr (Value × Ctx) :=
  Except.ok (ctx.orders, ctx)

/-- Source `allocate_inventory`.  When `available >= quantity` the code runs
`context['inventory'][sku] -= quantity`; if the key is absent (possible when
`quantity <= 0`) that statement raises `KeyError` before mutating anything. -/
def allocate_inventory (order_id sku : String) (quantity : Int) (ctx : Ctx) :
    Except PyErr (Value × Ctx) :=
  let available : Int := (ctx.inventory.lookup sku).getD 0
  if quantity ≤ available then
    match ctx.inventory.lookup sku with
    | none => Except.error (PyErr.keyError sku)
    | some v =>
      Except.ok
        (Value.vobj [("order_id", Value.vstr order_id),
                     ("allocated", Value.vint quantity)],
         { ctx with inventory := setA ctx.inventory sku (v - quantity) })
  else
    Except.ok
      (Value.vobj [("order_id", Value.vstr order_id),
                   ("allocated", Value.vint 0),
                   ("error", Value.vstr "Insufficient inventory")],
       ctx)

/-- Source `list_suppliers`: the supplier keys. -/
def list_suppliers (ctx : Ctx) : Except PyErr (Value × Ctx) :=
  Except.ok
    (Value.vobj [("suppliers", Value.varr (ctx.suppliers.map (fun p => Value.vstr p.1)))],
     ctx)

def supplierItemValue (it : SupplierItem) : Value :=
  Value.vobj [("unit_cost", Value.vnum it.unit_cost),
              ("min_order", Value.vint it.min_order)]

def supplierValue (s : Supplier) : Value :=
  Value.vobj [("name", Value.vstr s.name),
              ("lead_time_days", Value.vint s.lead_time_days),
              ("items", Value.vobj (s.items.map (fun p => (p.1, supplierItemValue p.2))))]

/-- Source `get_supplier_catalog`. -/
def get_supplier_catalog (supplier_id : String) (ctx : Ctx) :
    Except PyErr (Value × Ctx) :=
  match ctx.suppliers.lookup supplier_id with
  | some s => Except.ok (supplierValue s, ctx)
  | none =>
    Except.ok
      (Value.vobj [("error", Value.vstr ("Supplier " ++ supplier_id ++ " not found"))], ctx)

/-- Source `create_purchase_order`. -/
def create_purchase_order (supplier_id sku : String) (quantity : Int) (ctx : Ctx) :
    Except PyErr (Value × Ctx) :=
  match ctx.suppliers.lookup supplier_id with
  | none =>
    Except.ok
      (Value.vobj [("error", Value.vstr ("Supplier " ++ supplier_id ++ " not found"))], ctx)
  | some sup =>
    match sup.items.lookup sku with
    | none =>
      Except.ok
        (Value.vobj [("error",
            Value.vstr ("SKU " ++ sku ++ " not available from supplier " ++ supplier_id))], ctx)
    | some item =>
      if quantity < item.min_order then
        Except.ok
          (Value.vobj [("error",
              Value.vstr ("Quantity below minimum order of " ++ toString item.min_order))], ctx)
      else
        let po := "PO_" ++ supplier_id ++ "_" ++ sku
        Except.ok
          (Value.vobj [("po_number", Value.vstr po),
                       ("expected_delivery", Value.vint sup.lead_time_days)],
           { ctx with
             purchase_orders :=
               setA ctx.purchase_orders po
                 { supplier_id := supplier_id, sku := sku, quantity := quantity,
                   expected_delivery := sup.lead_time_days,
                   lead_time_days := sup.lead_time_days } })

/-- Source `check_processing_capacity`. -/
def check_processing_capacity (time_frame : String) (ctx : Ctx) :
    Except PyErr (Value × Ctx) :=
  Except.ok
    (Value.vobj [("time_frame", Value.vstr time_frame),
                 ("available_capacity", Value.vint ctx.processing)],
     ctx)

/-- Source `schedule_processing`: decrements processing capacity only when it
is strictly positive. -/
def schedule_processing (order_id priority now : String) (ctx : Ctx) :
    Except PyErr (Value × Ctx) :=
  if 0 < ctx.processing then
    Except.ok
      (Value.vobj [("order_id", Value.vstr order_id),
                   ("status", Value.vstr "Scheduled"),
                   ("priority", Value.vstr priority)],
       { ctx with processing := ctx.processing - 1,
                  scheduled_processing :=
                    setA ctx.scheduled_processing order_id
                      { priority := priority, status := "Scheduled", scheduled_at := now } })
  else
    Except.ok (Value.vobj [("error", Value.vstr "No processing capacity available")], ctx)

/-- Source `notify_customer`. -/
def notify_customer (customer_id order_id message now : String) (ctx : Ctx) :
    Except PyErr (Value × Ctx) :=
  Except.ok
    (Value.vobj [("customer_id", Value.vstr customer_id),
                 ("order_id", Value.vstr order_id),
                 ("notification_sent", Value.vbool true)],
     { ctx with
       customer_notifications :=
         setA ctx.customer_notifications order_id
           { customer_id := customer_id, message := message, sent_at := now } })

/-- Source `instructions_complete`. -/
def instructions_complete (ctx : Ctx) : Except PyErr (Value × Ctx) :=
  Except.ok (Value.vobj [("status", Value.vstr "Instructions complete")], ctx)

/-! ## Dynamic dispatch wrappers (CPython `f(**kwargs)` binding)

A call with missing or unexpected keyword arguments raises `TypeError`; a
value whose runtime type does not fit the parameter is modelled as a
`TypeError` at the call boundary. -/

def argMismatch (fn : String) : Except PyErr (Value × Ctx) :=
  Except.error (PyErr.typeError (fn ++ "() argument mismatch"))

def call_check_inventory (args : Args) (_now : String) (ctx : Ctx) :
    Except PyErr (Value × Ctx) :=
  match args with
  | [("sku", Value.vstr sku)] => check_inventory sku ctx
  | _ => argMismatch "check_inventory"

def call_get_pending_orders (args : Args) (_now : String) (ctx : Ctx) :
    Except PyErr (Value × Ctx) :=
  match args with
  | [] => get_pending_orders ctx
  | _ => argMismatch "get_pending_orders"

def call_allocate_inventory (args : Args) (_now : String) (ctx : Ctx) :
    Except PyErr (Value × Ctx) :=
  if args.length == 3 then
    match args.lookup "order_id", args.lookup "sku", args.lookup "quantity" with
    | some (Value.vstr o), some (Value.vstr s), some (Value.vint q) =>
      allocate_inventory o s q ctx
    | _, _, _ => argMismatch "allocate_inventory"
  else argMismatch "allocate_inventory"

def call_list_suppliers (args : Args) (_now : String) (ctx : Ctx) :
    Except PyErr (Value × Ctx) :=
  match args with
  | [] => list_suppliers ctx
  | _ => argMismatch "list_suppliers"

def call_get_supplier_catalog (args : Args) (_now : String) (ctx : Ctx) :
    Except PyErr (Value × Ctx) :=
  match args with
  | [("supplier_id", Value.vstr sid)] => get_supplier_catalog sid ctx
  | _ => argMismatch "get_supplier_catalog"

def call_create_purchase_order (args : Args) (_now : String) (ctx : Ctx) :
    Except PyErr (Value × Ctx) :=
  if args.length == 3 then
    match args.lookup "supplier_id", args.lookup "sku", args.lookup "quantity" with
    | some (Value.vstr sid), some (Value.vstr s), some (Value.vint q) =>
      create_purchase_order sid s q ctx
    | _, _, _ => argMismatch "create_purchase_order"
  else argMismatch "create_purchase_order"

def call_check_processing_capacity (args : Args) (_now : String) (ctx : Ctx) :
    Except PyErr (Value × Ctx) :=
  match args with
  | [("time_frame", Value.vstr tf)] => check_processing_capacity tf ctx
  | _ => argMismatch "check_processing_capacity"

def call_schedule_processing (args : Args) (now : String) (ctx : Ctx) :
    Except PyErr (Value × Ctx) :=
  if args.length == 2 then
    match args.lookup "order_id", args.lookup "priority" with
    | some (Value.vstr o), some (Value.vstr p) => schedule_processing o p now ctx
    | _, _ => argMismatch "schedule_processing"
  else argMismatch "schedule_processing"

def call_notify_customer (args : Args) (now : String) (ctx : Ctx) :
    Except PyErr (Value × Ctx) :=
  if args.length == 3 then
    match args.lookup "customer_id", args.lookup "order_id", args.lookup "message" with
    | some (Value.vstr c), some (Value.vstr o), some (Value.vstr m) =>
      notify_customer c o m now ctx
    | _, _, _ => argMismatch "notify_customer"
  else argMismatch "notify_customer"

def call_instructions_complete (args : Args) (_now : String) (ctx : Ctx) :
    Except PyErr (Value × Ctx) :=
  match args with
  | [] => instructions_complete ctx
  | _ => argMismatch "instructions_complete"

/-- The `function_mapping` of the source, in source order. -/
def function_mapping :
    List (String × (Args → String → Ctx → Except PyErr (Value × Ctx))) :=
  [("check_inventory", call_check_inventory),
   ("get_pending_orders", call_get_pending_orders),
   ("allocate_inventory", call_allocate_inventory),
   ("list_suppliers", call_list_suppliers),
   ("get_supplier_catalog", call_get_supplier_catalog),
   ("create_purchase_order", call_create_purchase_order),
   ("check_processing_capacity", call_check_processing_capacity),
   ("schedule_processing", call_schedule_processing),
   ("notify_customer", call_notify_customer),
   ("instructions_complete", call_instructions_complete)]

def lookupFn (n : String) :
    Option (Args → String → Ctx → Except PyErr (Value × Ctx)) :=
  function_mapping.lookup n

/-! ## The default business context (`context.py` defaults, identical to the
prototype's module-level `context`) -/

def default_orders : Value :=
  Value.varr
    [Value.vobj
      [("order_id", Value.vstr "ORD001"),
       ("items", Value.varr
         [Value.vobj [("sku", Value.vstr "SKU001"), ("quantity", Value.vint 30)],
          Value.vobj [("sku", Value.vstr "SKU002"), ("quantity", Value.vint 20)]]),
       ("customer_id", Value.vstr "CUST001"),
       ("shipping_address", Value.vstr "New York, NY"),
       ("priority", Value.vstr "Standard")],
     Value.vobj
      [("order_id", Value.vstr "ORD002"),
       ("items", Value.varr
         [Value.vobj [("sku", Value.vstr "SKU002"), ("quantity", Value.vint 50)]]),
       ("customer_id", Value.vstr "CUST002"),
       ("shipping_address", Value.vstr "Los Angeles, CA"),
       ("priority", Value.vstr "Express")]]

def default_context : Ctx :=
  { inventory := [("SKU001", 100), ("SKU002", 75), ("SKU003", 50)],
    orders := default_orders,
    suppliers :=
      [("SUP001",
        { name := "Primary Supplier", lead_time_days := 5,
          items := [("SKU001", { unit_cost := 10, min_order := 50 }),
                    ("SKU002", { unit_cost := 15, min_order := 30 })] }),
       ("SUP002",
        { name := "Secondary Supplier", lead_time_days := 7,
          items := [("SKU002", { unit_cost := 16, min_order := 25 }),
                    ("SKU003", { unit_cost := 20, min_order := 40 })] })],
    processing := 200,
    shipping := 150,
    purchase_orders := [],
    scheduled_processing := [],
    customer_notifications := [] }

/-! ## Conversation data model -/

/-- A tool-call request of a model response (`tool_call.id`,
`tool_call.function.name`, `tool_call.function.arguments`). -/
structure ToolCall where
  id : String
  functionName : String
  arguments : String
deriving DecidableEq

/-- A model response: optional text content plus tool-call requests. -/
structure ModelResponse where
  content : Option String
  toolCalls : List ToolCall
deriving DecidableEq

/-- A transcript message.  The executor variant additionally stores the
function name on tool messages; absent keys are `none` / `[]`. -/
structure Msg where
  role : String
  content : Option String := none
  tool_call_id : Option String := none
  name : Option String := none
  tool_calls : List ToolCall := []
deriving DecidableEq

/-- An observability-log entry (an element of `message_list`).  The source
logs a `json.dumps` rendering of the context; the event here carries the
context value itself. -/
inductive Event where
  | status : String → Event
  | plan : String → Event
  | assistant : Option String → Event
  | contextEv : Ctx → Event
  | toolCall : (functionName : String) → (arguments : String) → Event
  | toolResponse : (functionName : String) → (response : String) → Event
  | functionCall : (functionName : String) → (args : Args) → Event
  | functionResponse : (functionName : String) → (response : Value) → Event

/-- The mutable state owned by one execution loop: the model-visible
transcript (`messages`), the observability log (`message_list`) and the
business context. -/
structure LoopState where
  messages : List Msg
  messageList : List Event
  ctx : Ctx

/-- Oracle record for the `json` library calls made by the loops. -/
structure PyJson where
  loads : String → Option Args
  dumps : Value → String

/-! ## A concrete `json` oracle for closed instances

`dumpScalar`/`dumpsFlat` agree with `json.dumps` on scalars and on non-nested
objects and arrays, which covers every value serialized in the closed
theorems below; nested collections (never serialized there) are rendered as a
placeholder. -/

def jsonQuote (s : String) : String :=
  "\"" ++ pyReplace (pyReplace s "\\" "\\\\") "\"" "\\\"" ++ "\""

def dumpScalar : Value → String
  | Value.vnull => "null"
  | Value.vbool true => "true"
  | Value.vbool false => "false"
  | Value.vint n => toString n
  | Value.vnum q => toString q
  | Value.vstr s => jsonQuote s
  | Value.varr _ => "..."
  | Value.vobj _ => "..."

def dumpsFlat : Value → String
  | Value.vobj fields =>
    "\x7b" ++
      String.intercalate ", "
        (fields.map (fun p => jsonQuote p.1 ++ ": " ++ dumpScalar p.2)) ++ "\x7d"
  | Value.varr xs => "[" ++ String.intercalate ", " (xs.map dumpScalar) ++ "]"
  | v => dumpScalar v

/-- Argument strings appearing in the closed instances of this file, with the
`json.loads` results they would produce. -/
def sampleLoads (s : String) : Option Args :=
  if s = "\x7b\x7d" then some []
  else if s = "\x7b\"order_id\": \"ORD001\", \"sku\": \"SKU001\", \"quantity\": -50\x7d" then
    some [("order_id", Value.vstr "ORD001"), ("sku", Value.vstr "SKU001"),
          ("quantity", Value.vint (-50))]
  else if s = "\x7b\"order_id\": \"ORD002\", \"sku\": \"SKU001\", \"quantity\": 150\x7d" then
    some [("order_id", Value.vstr "ORD002"), ("sku", Value.vstr "SKU001"),
          ("quantity", Value.vint 150)]
  else none

def sampleJson : PyJson := { loads := sampleLoads, dumps := dumpsFlat }

/-! ## Prompt templates (`config.py`; the prototype embeds the same text) -/

def EXECUTOR_PROMPT : String :=
  "\nYou are a policy execution assistant responsible for implementing the given plan. Do not analyze the plan, just execute it.\nFollow each step carefully, calling the appropriate provided functions to complete the tasks.\nExplain and justify each step you take.\n\nPLAN:\n\x7bplan\x7d\n"

/-- The system prompt of an execution run: the template with the plan text
substituted (`str.format` / `str.replace` with the single placeholder). -/
def systemPromptFor (plan : String) : String :=
  pyReplace EXECUTOR_PROMPT "\x7bplan\x7d" plan

/-! ## The prototype execution loop (`src/prototype/order_fulfillment.py`,
`execute_plan`) -/

/-- The assistant message the prototype appends
(`response.choices[0].message.to_dict()`: content and tool calls). -/
def protoAssistantMsg (resp : ModelResponse) : Msg :=
  { role := "assistant", content := resp.content, tool_calls := resp.toolCalls }

/-- One iteration of the prototype's dispatch loop body for a single
tool-call request: log the call, parse the arguments (a parse failure skips
the call via `continue`), resolve the name (unknown names become a structured
error payload), invoke the function (exceptions are caught and converted to
an error payload), serialize, append the tool message and log the response. -/
def protoDispatchStep (J : PyJson) (now : String) (c : ToolCall) (st : LoopState) :
    LoopState :=
  let st1 : LoopState :=
    { st with messageList := st.messageList ++ [Event.toolCall c.functionName c.arguments] }
  match J.loads c.arguments with
  | none => st1
  | some args =>
    let rc : Value × Ctx :=
      match lookupFn c.functionName with
      | some f =>
        match f args now st1.ctx with
        | Except.ok out => out
        | Except.error e => (Value.vobj [("error", Value.vstr (pyExcStr e))], st1.ctx)
      | none =>
        (Value.vobj
          [("error",
            Value.vstr ("Function \x27" ++ c.functionName ++ "\x27 not implemented."))],
         st1.ctx)
    let serialized := J.dumps rc.1
    { st1 with
      ctx := rc.2,
      messages := st1.messages ++
        [{ role := "tool", tool_call_id := some c.id, content := some serialized }],
      messageList := st1.messageList ++ [Event.toolResponse c.functionName serialized] }

/-- The prototype's second scan: dispatch every tool call of the turn, in the
order returned. -/
def protoDispatch (J : PyJson) (now : String) :
    List ToolCall → LoopState → LoopState
  | [], st => st
  | c :: rest, st => protoDispatch J now rest (protoDispatchStep J now c st)

/-- Result of one iteration of the prototype's `while True` loop. -/
inductive ProtoResult where
  | terminated : (ret : List Msg) → (st : LoopState) → ProtoResult
  | continued : (st : LoopState) → ProtoResult

def ProtoResult.state : ProtoResult → LoopState
  | ProtoResult.terminated _ st => st
  | ProtoResult.continued st => st

/-- One iteration of the prototype loop on one model response: append the
assistant message and log it; with no tool calls the body runs `continue`;
otherwise the first scan returns immediately when any call names the
`instructions_complete` sentinel (logging a final context event), and the
second scan dispatches the calls. -/
def protoStep (J : PyJson) (now : String) (resp : ModelResponse) (st : LoopState) :
    ProtoResult :=
  let st1 : LoopState :=
    { st with
      messages := st.messages ++ [protoAssistantMsg resp],
      messageList := st.messageList ++ [Event.assistant resp.content] }
  if resp.toolCalls.isEmpty then ProtoResult.continued st1
  else if resp.toolCalls.any (fun t => t.functionName == "instructions_complete") then
    ProtoResult.terminated st1.messages
      { st1 with messageList := st1.messageList ++ [Event.contextEv st1.ctx] }
  else ProtoResult.continued (protoDispatch J now resp.toolCalls st1)

/-- The prototype loop driven by a script of model responses (one response
per network call).  `none` means the script ran out while the loop was still
awaiting the next response. -/
def protoRun (J : PyJson) (now : String) :
    List ModelResponse → LoopState → Option (List Msg × LoopState)
  | [], _ => none
  | r :: rs, st =>
    match protoStep J now r st with
    | ProtoResult.terminated ret st' => some (ret, st')
    | ProtoResult.continued st' => protoRun J now rs st'

/-- Loop state at entry of the prototype's `execute_plan`: the system message
built from the plan, and the initial context event logged. -/
def protoStart (plan : String) (priorLog : List Event) (ctx : Ctx) : LoopState :=
  { messages := [{ role := "system", content := some (systemPromptFor plan) }],
    messageList := priorLog ++ [Event.contextEv ctx],
    ctx := ctx }

/-! ## The refactored execution loop (`src/order_fulfillment/executor.py`,
`PolicyExecutor.execute_plan`) -/

/-- The assistant message the executor appends (content only; the tool calls
are not stored). -/
def execAssistantMsg (resp : ModelResponse) : Msg :=
  { role := "assistant", content := resp.content }

/-- Result of one iteration of the executor's loop: graceful return of the
message list, continuation, or an uncaught Python exception. -/
inductive StepResult where
  | terminated : (ret : List Event) → (st : LoopState) → StepResult
  | continued : (st : LoopState) → StepResult
  | raised : (e : PyErr) → (st : LoopState) → StepResult

def StepResult.state : StepResult → LoopState
  | StepResult.terminated _ st => st
  | StepResult.continued st => st
  | StepResult.raised _ st => st

/-- Sequencing of executor dispatch results: continue into the next stage,
propagate termination and exceptions. -/
def StepResult.andThen : StepResult → (LoopState → StepResult) → StepResult
  | StepResult.continued st, k => k st
  | r, _ => r

/-- One tool call processed by the executor's dispatch loop.  The
`processing_complete` sentinel returns the message list without executing
anything; `json.loads` failures, unknown function names and exceptions from
the invoked function are NOT handled here and propagate as raised errors. -/
def execDispatchStep (J : PyJson) (now : String) (c : ToolCall) (st : LoopState) :
    StepResult :=
  if c.functionName == "processing_complete" then
    StepResult.terminated st.messageList st
  else
    match J.loads c.arguments with
    | none => StepResult.raised PyErr.jsonDecodeError st
    | some args =>
      let st1 : LoopState :=
        { st with messageList := st.messageList ++ [Event.functionCall c.functionName args] }
      match lookupFn c.functionName with
      | none => StepResult.raised (PyErr.keyError c.functionName) st1
      | some f =>
        match f args now st1.ctx with
        | Except.error e => StepResult.raised e st1
        | Except.ok (v, ctx') =>
          StepResult.continued
            { st1 with
              ctx := ctx',
              messageList := st1.messageList ++ [Event.functionResponse c.functionName v],
              messages := st1.messages ++
                [{ role := "tool", tool_call_id := some c.id,
                   name := some c.functionName, content := some (J.dumps v) }] }

/-- The executor's dispatch over the tool calls of one turn, in order. -/
def execDispatch (J : PyJson) (now : String) :
    List ToolCall → LoopState → StepResult
  | [], st => StepResult.continued st
  | c :: rest, st =>
    match execDispatchStep J now c st with
    | StepResult.continued st' => execDispatch J now rest st'
    | r => r

/-- One iteration of the executor's `while True` loop: append the assistant
message (content only, nothing logged); with no tool calls the loop breaks
and returns the message list; otherwise dispatch the calls. -/
def execStep (J : PyJson) (now : String) (resp : ModelResponse) (st : LoopState) :
    StepResult :=
  let st1 : LoopState := { st with messages := st.messages ++ [execAssistantMsg resp] }
  if resp.toolCalls.isEmpty then StepResult.terminated st1.messageList st1
  else execDispatch J now resp.toolCalls st1

/-- Outcome of an executor run: graceful return of the message list, or an
uncaught exception aborting the run. -/
inductive RunOut where
  | returned : (ret : List Event) → (st : LoopState) → RunOut
  | raised : (e : PyErr) → (st : LoopState) → RunOut

/-- The executor loop driven by a script of model responses. -/
def execRun (J : PyJson) (now : String) :
    List ModelResponse → LoopState → Option RunOut
  | [], _ => none
  | r :: rs, st =>
    match execStep J now r st with
    | StepResult.terminated ret st' => some (RunOut.returned ret st')
    | StepResult.raised e st' => some (RunOut.raised e st')
    | StepResult.continued st' => execRun J now rs st'

/-- Observability log of a finished executor run (empty when the run is still
awaiting a response). -/
def runOutLog : Option RunOut → List Event
  | some (RunOut.returned _ st) => st.messageList
  | some (RunOut.raised _ st) => st.messageList
  | none => []

/-- Transcript of a finished executor run. -/
def runOutMsgs : Option RunOut → List Msg
  | some (RunOut.returned _ st) => st.messages
  | some (RunOut.raised _ st) => st.messages
  | none => []

/-- Loop state at entry of `PolicyExecutor.execute_plan`. -/
def execStart (plan : String) (priorLog : List Event) (ctx : Ctx) : LoopState :=
  { messages := [{ role := "system", content := some (systemPromptFor plan) }],
    messageList := priorLog ++ [Event.contextEv ctx],
    ctx := ctx }

/-- Does an event record an executed invocation of the executor's
`processing_complete` sentinel? -/
def isProcCompleteCall : Event → Bool
  | Event.functionCall n _ => n == "processing_complete"
  | _ => false

/-! ## The function registry (`registry.py`, identical in the prototype) -/

/-- A Python type usable as a parameter annotation.  `pyother` stands for any
annotation outside the registry's `type_map`. -/
inductive PyType where
  | pystr | pyint | pyfloat | pybool | pydict | pylist | pyother
deriving DecidableEq

/-- A parameter as seen by `inspect.signature`: its name, its annotation
(`none` is `inspect.Parameter.empty`) and whether it carries a default. -/
structure PyParam where
  name : String
  annot : Option PyType
  hasDefault : Bool
deriving DecidableEq

/-- A callable as seen by the registry: its parameters and its cleaned
docstring (`inspect.getdoc(func) or ""`). -/
structure PyFunc where
  params : List PyParam
  doc : String
deriving DecidableEq

/-- Python `s.split(pat)[1]` (the text between the first and second
occurrence of `pat`), for a `pat` known to occur. -/
def pySplitAfter (s pat : String) : String :=
  (pySplit s pat).getD 1 ""

/-- Source `FunctionRegistry.get_param_type`: map the annotation through
`type_map`, defaulting to string for a missing or unknown annotation. -/
def get_param_type (annot : Option PyType) : String :=
  match annot with
  | none => "string"
  | some PyType.pystr => "string"
  | some PyType.pyint => "integer"
  | some PyType.pyfloat => "number"
  | some PyType.pybool => "boolean"
  | some PyType.pydict => "object"
  | some PyType.pylist => "array"
  | some PyType.pyother => "string"

/-- Generated JSON-schema entry for one parameter. -/
structure PropSchema where
  type : String
  description : String
  enumVals : Option (List String)
deriving DecidableEq

/-- First docstring line carrying `:param <name>:`, with the text after the
marker, trimmed; empty when absent. -/
def findParamDesc (doc pname : String) : String :=
  match (pySplit doc "\n").find? (fun l => pyContains l (":param " ++ pname ++ ":")) with
  | some l => pyTrim (pySplitAfter l (":param " ++ pname ++ ":"))
  | none => ""

/-- Enum extraction: lines carrying `:enum <name>:`, first one split on
commas, each value trimmed. -/
def findEnum (doc pname : String) : Option (List String) :=
  match (pySplit doc "\n").filter (fun l => pyContains l (":enum " ++ pname ++ ":")) with
  | [] => none
  | l :: _ =>
    some ((pySplit (pyTrim (pySplitAfter l (":enum " ++ pname ++ ":"))) ",").map pyTrim)

/-- The property schema the registry builds for one parameter.  Note the
guard on the enum branch: the source tests for the literal substring
`":enum:"` in the docstring before looking for `:enum <name>:` lines. -/
def mkProperty (doc : String) (p : PyParam) : PropSchema :=
  let found := findParamDesc doc p.name
  { type := get_param_type p.annot,
    description :=
      if found = "" then "The " ++ (pyReplace p.name "_" " ") ++ "." else found,
    enumVals := if pyContains doc ":enum:" then findEnum doc p.name else none }

/-- The parameter loop of `extract_function_metadata`: skip `self`, build the
properties in order, and append each defaultless parameter to `required`. -/
def extractParams (doc : String) : List PyParam → List (String × PropSchema) × List String
  | [] => ([], [])
  | p :: rest =>
    if p.name == "self" then extractParams doc rest
    else
      let r := extractParams doc rest
      ((p.name, mkProperty doc p) :: r.1,
       if p.hasDefault then r.2 else p.name :: r.2)

/-- The generated parameter schema object. -/
structure ParamsSchema where
  properties : List (String × PropSchema)
  required : List String
  additionalProperties : Bool
deriving DecidableEq

/-- Metadata returned by `FunctionRegistry.extract_function_metadata`. -/
structure FuncMetadata where
  description : String
  parameters : ParamsSchema
deriving DecidableEq

/-- Source `FunctionRegistry.extract_function_metadata`. -/
def extract_function_metadata (f : PyFunc) : FuncMetadata :=
  let r := extractParams f.doc f.params
  { description := (pySplit f.doc "\n").getD 0 "",
    parameters :=
      { properties := r.1, required := r.2, additionalProperties := false } }

/-- The enum constraint the registry attached to a parameter, if any. -/
def propEnum (m : FuncMetadata) (pname : String) : Option (List String) :=
  match m.parameters.properties.lookup pname with
  | some s => s.enumVals
  | none => none

/-- Type entry the registry attached to a parameter (empty when the
parameter has no property entry). -/
def propType (m : FuncMetadata) (pname : String) : String :=
  match m.parameters.properties.lookup pname with
  | some s => s.type
  | none => ""

/-- The recognized JSON-schema types of the registry's `type_map`. -/
def jsonTypes : List String :=
  ["string", "integer", "number", "boolean", "object", "array"]

/-- The cleaned docstring of `check_inventory` (as `inspect.getdoc` yields
it: indentation stripped). -/
def checkInventoryDoc : String :=
  "Check current inventory level for a product.\n:param sku: The stock keeping unit identifier\n:enum sku: SKU001,SKU002,SKU003"

/-- The signature-and-docstring view of the registered `check_inventory`
(bound method: `self` absent from `inspect.signature`). -/
def check_inventory_py : PyFunc :=
  { params := [{ name := "sku", annot := some PyType.pystr, hasDefault := false }],
    doc := checkInventoryDoc }

/-- The signature-and-docstring view of the registered `allocate_inventory`. -/
def allocate_inventory_py : PyFunc :=
  { params :=
      [{ name := "order_id", annot := some PyType.pystr, hasDefault := false },
       { name := "sku", annot := some PyType.pystr, hasDefault := false },
       { name := "quantity", annot := some PyType.pyint, hasDefault := false }],
    doc := "Allocate inventory for an order.\n:param order_id: The order identifier\n:param sku: The stock keeping unit identifier\n:param quantity: The quantity to allocate" }

/-! ## Plan persistence (`plans.py`)

The on-disk plan store is modelled as a mapping of paths to records; writing
the four string fields with `json.dump` and reading them back with
`json.load` is lossless, so a stored record is the `Plan` value itself. -/

/-- Source `Plan` dataclass. -/
structure Plan where
  scenario : String
  plan_text : String
  model_used : String
  created_at : String
deriving DecidableEq

/-- Source `Plan.save`: resolve the filename (a timestamp-derived name when
none is given), write the record under `run_results/plans/`, and return the
path. -/
def Plan.save (p : Plan) (filename : Option String) (timestamp : String)
    (store : List (String × Plan)) : String × List (String × Plan) :=
  let fname := filename.getD ("plan_" ++ timestamp ++ ".json")
  let path := "run_results/plans/" ++ fname
  (path, setA store path p)

/-- Source `Plan.load`: read the record stored under the same location. -/
def Plan.load (filename : String) (store : List (String × Plan)) : Option Plan :=
  store.lookup ("run_results/plans/" ++ filename)

/-! ## Direct business-call sequences (for the state invariant) -/

/-- A direct call to one of the two mutating business functions, with
arbitrary arguments. -/
inductive BizCall where
  | alloc : (order_id sku : String) → (quantity : Int) → BizCall
  | sched : (order_id priority : String) → BizCall

/-- Apply one business call to the context; an exception leaves the context
unchanged (the source raises before mutating). -/
def applyBizCall (now : String) (c : Ctx) : BizCall → Ctx
  | BizCall.alloc o s q =>
    match allocate_inventory o s q c with
    | Except.ok (_, c') => c'
    | Except.error _ => c
  | BizCall.sched o p =>
    match schedule_processing o p now c with
    | Except.ok (_, c') => c'
    | Except.error _ => c

def runBizCalls (now : String) (cs : List BizCall) (c : Ctx) : Ctx :=
  cs.foldl (applyBizCall now) c

/-- Non-negativity of every inventory level and of the processing capacity. -/
def CtxNonneg (c : Ctx) : Prop :=
  (∀ p ∈ c.inventory, 0 ≤ p.2) ∧ 0 ≤ c.processing

/-! ## Shared concrete instances for closed theorems -/

def protoSt0 : LoopState := protoStart "demo plan" [] default_context

def execSt0 : LoopState := execStart "demo plan" [] default_context

/-- A turn calling an unregistered function name. -/
def respUnknown : ModelResponse :=
  { content := some "I will update the inventory.",
    toolCalls := [{ id := "u1", functionName := "update_inventory",
                    arguments := "\x7b\x7d" }] }

/-- A turn whose tool-call arguments are not parseable. -/
def respBadArgs : ModelResponse :=
  { content := some "Allocating now.",
    toolCalls := [{ id := "b1", functionName := "allocate_inventory",
                    arguments := "not json" }] }

/-- A turn with no tool-call requests. -/
def respNoTools : ModelResponse := { content := some "All done.", toolCalls := [] }

/-- A turn naming both variants' completion sentinels. -/
def respSentinel : ModelResponse :=
  { content := some "Finished.",
    toolCalls := [{ id := "sA", functionName := "instructions_complete",
                    arguments := "\x7b\x7d" },
                  { id := "sB", functionName := "processing_complete",
                    arguments := "\x7b\x7d" }] }

/-- Same-turn dependent pair: the first call raises SKU001 stock from 100 to
150 (a negative allocation), the second allocates 150, which only succeeds
after the first call's mutation. -/
def c8call1 : ToolCall :=
  { id := "d1", functionName := "allocate_inventory",
    arguments := "\x7b\"order_id\": \"ORD001\", \"sku\": \"SKU001\", \"quantity\": -50\x7d" }

def c8call2 : ToolCall :=
  { id := "d2", functionName := "allocate_inventory",
    arguments := "\x7b\"order_id\": \"ORD002\", \"sku\": \"SKU001\", \"quantity\": 150\x7d" }

/-- The malformed tool call of `respBadArgs`. -/
def badCall : ToolCall :=
  { id := "b1", functionName := "allocate_inventory", arguments := "not json" }

/-- The `quantity` parameter of `allocate_inventory` as the registry sees
it. -/
def quantity_param : PyParam :=
  { name := "quantity", annot := some PyType.pyint, hasDefault := false }

/-- State extension that adds no executed sentinel invocation: every new log
event is not a `processing_complete` function call, and every new transcript
message does not carry the sentinel's name. -/
def GoodExt (st st' : LoopState) : Prop :=
  (∀ e ∈ st'.messageList, e ∈ st.messageList ∨ isProcCompleteCall e = false) ∧
  (∀ m ∈ st'.messages, m ∈ st.messages ∨ m.name ≠ some "processing_complete")

/-! ## Helper lemmas -/

theorem goodExt_refl (st : LoopState) : GoodExt st st :=
  ⟨fun _ he => Or.inl he, fun _ hm => Or.inl hm⟩

theorem goodExt_trans {s1 s2 s3 : LoopState} (h12 : GoodExt s1 s2) (h23 : GoodExt s2 s3) :
    GoodExt s1 s3 := by
  refine ⟨fun e he => ?_, fun m hm => ?_⟩
  · rcases h23.1 e he with h | h
    · exact h12.1 e h
    · exact Or.inr h
  · rcases h23.2 m hm with h | h
    · exact h12.2 m h
    · exact Or.inr h

theorem mem_setA {β : Type} (l : List (String × β)) (k : String) (x : β)
    (p : String × β) (hp : p ∈ setA l k x) : p = (k, x) ∨ p ∈ l := by
  induction l with
  | nil =>
    simp [setA] at hp
    exact Or.inl hp
  | cons q rest ih =>
    obtain ⟨k', v⟩ := q
    simp only [setA] at hp
    by_cases h : k' == k
    · rw [if_pos h] at hp
      rcases List.mem_cons.mp hp with h1 | h2
      · exact Or.inl h1
      · exact Or.inr (List.mem_cons_of_mem _ h2)
    · rw [if_neg h] at hp
      rcases List.mem_cons.mp hp with h1 | h2
      · exact Or.inr (h1 ▸ List.mem_cons_self _ _)
      · rcases ih h2 with h3 | h4
        · exact Or.inl h3
        · exact Or.inr (List.mem_cons_of_mem _ h4)

theorem lookup_setA {β : Type} (l : List (String × β)) (k : String) (x : β) :
    (setA l k x).lookup k = some x := by
  induction l with
  | nil => simp [setA, List.lookup]
  | cons q rest ih =>
    obtain ⟨k', v⟩ := q
    by_cases h : k' = k
    · simp [setA, h, List.lookup]
    · have h2 : (k' == k) = false := beq_eq_false_iff_ne.mpr h
      have h3 : (k == k') = false := beq_eq_false_iff_ne.mpr (Ne.symm h)
      simp [setA, h2, h3, List.lookup, ih]

theorem protoDispatch_append (J : PyJson) (now : String) (xs ys : List ToolCall)
    (st : LoopState) :
    protoDispatch J now (xs ++ ys) st = protoDispatch J now ys (protoDispatch J now xs st) := by
  induction xs generalizing st with
  | nil => rfl
  | cons c rest ih =>
    simp only [List.cons_append, protoDispatch]
    exact ih (protoDispatchStep J now c st)

theorem execDispatch_append (J : PyJson) (now : String) (xs ys : List ToolCall)
    (st : LoopState) :
    execDispatch J now (xs ++ ys) st =
      StepResult.andThen (execDispatch J now xs st) (execDispatch J now ys) := by
  induction xs generalizing st with
  | nil => rfl
  | cons c rest ih =>
    simp only [List.cons_append, execDispatch]
    cases h : execDispatchStep J now c st with
    | continued st' => exact ih st'
    | terminated ret st' => rfl
    | raised e st' => rfl

theorem execDispatchStep_goodExt (J : PyJson) (now : String) (c : ToolCall)
    (st : LoopState) (hc : c.functionName ≠ "processing_complete") :
    GoodExt st (StepResult.state (execDispatchStep J now c st)) := by
  have hcb : (c.functionName == "processing_complete") = false :=
    beq_eq_false_iff_ne.mpr hc
  simp only [execDispatchStep, hcb, Bool.false_eq_true, if_false]
  cases hl : J.loads c.arguments with
  | none => exact goodExt_refl st
  | some args =>
    dsimp only
    cases hf : lookupFn c.functionName with
    | none =>
      dsimp only [StepResult.state]
      refine ⟨fun e he => ?_, fun m hm => Or.inl hm⟩
      rcases List.mem_append.mp he with h | h
      · exact Or.inl h
      · simp at h
        subst h
        exact Or.inr (by simp [isProcCompleteCall, hcb])
    | some f =>
      dsimp only
      cases hr : f args now st.ctx with
      | error e' =>
        dsimp only [StepResult.state]
        refine ⟨fun e he => ?_, fun m hm => Or.inl hm⟩
        rcases List.mem_append.mp he with h | h
        · exact Or.inl h
        · simp at h
          subst h
          exact Or.inr (by simp [isProcCompleteCall, hcb])
      | ok out =>
        obtain ⟨v, ctx'⟩ := out
        dsimp only [StepResult.state]
        refine ⟨fun e he => ?_, fun m hm => ?_⟩
        · rcases List.mem_append.mp he with h | h
          · rcases List.mem_append.mp h with h1 | h1
            · exact Or.inl h1
            · simp at h1
              subst h1
              exact Or.inr (by simp [isProcCompleteCall, hcb])
          · simp at h
            subst h
            exact Or.inr (by simp [isProcCompleteCall])
        · rcases List.mem_append.mp hm with h | h
          · exact Or.inl h
          · simp at h
            subst h
            simp only [ne_eq, Option.some.injEq]
            exact Or.inr hc

theorem execDispatch_goodExt (J : PyJson) (now : String) (cs : List ToolCall)
    (st : LoopState) :
    GoodExt st (StepResult.state (execDispatch J now cs st)) := by
  induction cs generalizing st with
  | nil => exact goodExt_refl st
  | cons c rest ih =>
    simp only [execDispatch]
    by_cases hc : c.functionName = "processing_complete"
    · have hcb : (c.functionName == "processing_complete") = true := beq_iff_eq.mpr hc
      simp only [execDispatchStep, hcb, if_true]
      exact goodExt_refl st
    · have hstep := execDispatchStep_goodExt J now c st hc
      cases h : execDispatchStep J now c st with
      | continued st' =>
        rw [h] at hstep
        exact goodExt_trans hstep (ih st')
      | terminated ret st' =>
        rw [h] at hstep
        exact hstep
      | raised e st' =>
        rw [h] at hstep
        exact hstep

theorem execDispatch_not_continued (J : PyJson) (now : String) (cs : List ToolCall)
    (st : LoopState) (h : "processing_complete" ∈ cs.map ToolCall.functionName) :
    ∀ st', execDispatch J now cs st ≠ StepResult.continued st' := by
  induction cs generalizing st with
  | nil => simp at h
  | cons c rest ih =>
    intro st'
    by_cases hc : c.functionName = "processing_complete"
    · have hcb : (c.functionName == "processing_complete") = true := beq_iff_eq.mpr hc
      simp [execDispatch, execDispatchStep, hcb]
    · have hrest : "processing_complete" ∈ rest.map ToolCall.functionName := by
        simp only [List.map_cons, List.mem_cons] at h
        rcases h with h1 | h2
        · exact absurd h1.symm hc
        · exact h2
      simp only [execDispatch]
      cases hstep : execDispatchStep J now c st with
      | continued st2 => exact ih st2 hrest st'
      | terminated ret st2 => simp
      | raised e st2 => simp

theorem execStep_goodExt (J : PyJson) (now : String) (resp : ModelResponse)
    (st : LoopState) : GoodExt st (StepResult.state (execStep J now resp st)) := by
  have h1 : GoodExt st { st with messages := st.messages ++ [execAssistantMsg resp] } := by
    refine ⟨fun e he => Or.inl he, fun m hm => ?_⟩
    rcases List.mem_append.mp hm with h | h
    · exact Or.inl h
    · simp at h
      subst h
      exact Or.inr (by simp [execAssistantMsg])
  simp only [execStep]
  by_cases he : resp.toolCalls.isEmpty
  · simp only [he, if_true, StepResult.state]
    exact h1
  · simp only [he, if_false, Bool.false_eq_true]
    exact goodExt_trans h1 (execDispatch_goodExt J now resp.toolCalls _)

theorem execStep_not_continued (J : PyJson) (now : String) (resp : ModelResponse)
    (st : LoopState)
    (h : "processing_complete" ∈ resp.toolCalls.map ToolCall.functionName) :
    ∀ st', execStep J now resp st ≠ StepResult.continued st' := by
  intro st'
  have hne : resp.toolCalls.isEmpty = false := by
    cases hTC : resp.toolCalls with
    | nil => rw [hTC] at h; simp at h
    | cons a as => rfl
  simp only [execStep, hne, Bool.false_eq_true, if_false]
  exact execDispatch_not_continued J now _ _ h st'

/-! ## Claim theorems -/

/-- C1: in every execution run and every turn, if any tool-call request of
the model response names the designated completion sentinel
(`instructions_complete` in the prototype, `processing_complete` in
`PolicyExecutor`), the loop terminates at that turn and the sentinel is
never invoked as an executed tool: the prototype returns before dispatching
anything (transcript, log and context gain only the assistant message and
the final context event, and the transcript's tool-result set is unchanged);
the executor's run does not continue past that response, and neither its log
nor its transcript gains an executed invocation of the sentinel. -/
theorem c1_sentinel_terminates_without_execution (J : PyJson) (now : String)
    (resp : ModelResponse) (script : List ModelResponse) (st : LoopState) :
    ("instructions_complete" ∈ resp.toolCalls.map ToolCall.functionName →
      protoRun J now (resp :: script) st =
        some (st.messages ++ [protoAssistantMsg resp],
          { messages := st.messages ++ [protoAssistantMsg resp],
            messageList := (st.messageList ++ [Event.assistant resp.content]) ++
              [Event.contextEv st.ctx],
            ctx := st.ctx }) ∧
      (st.messages ++ [protoAssistantMsg resp]).filter (fun m => m.role == "tool") =
        st.messages.filter (fun m => m.role == "tool")) ∧
    ("processing_complete" ∈ resp.toolCalls.map ToolCall.functionName →
      execRun J now (resp :: script) st = execRun J now [resp] st ∧
      (∀ e ∈ runOutLog (execRun J now [resp] st),
        e ∈ st.messageList ∨ isProcCompleteCall e = false) ∧
      (∀ m ∈ runOutMsgs (execRun J now [resp] st),
        m ∈ st.messages ∨ m.name ≠ some "processing_complete")) := by
  constructor
  · intro h
    have hne : resp.toolCalls.isEmpty = false := by
      rcases List.mem_map.mp h with ⟨c, hc, _⟩
      cases hTC : resp.toolCalls with
      | nil => rw [hTC] at hc; simp at hc
      | cons a as => rfl
    have hany : resp.toolCalls.any (fun t => t.functionName == "instructions_complete") = true := by
      rcases List.mem_map.mp h with ⟨c, hc, hcn⟩
      exact List.any_eq_true.mpr ⟨c, hc, beq_iff_eq.mpr hcn⟩
    constructor
    · simp only [protoRun, protoStep, hne, Bool.false_eq_true, if_false, hany, if_true]
    · simp [protoAssistantMsg, List.filter_append]
  · intro h
    have hstep := execStep_not_continued J now resp st h
    have hgood := execStep_goodExt J now resp st
    refine ⟨?_, ?_, ?_⟩
    · simp only [execRun]
      cases hs : execStep J now resp st with
      | terminated ret st' => rfl
      | raised e st' => rfl
      | continued st' => exact absurd hs (hstep st')
    · cases hs : execStep J now resp st with
      | terminated ret st' =>
        rw [hs] at hgood
        simp only [execRun, hs, runOutLog]
        exact hgood.1
      | raised e st' =>
        rw [hs] at hgood
        simp only [execRun, hs, runOutLog]
        exact hgood.1
      | continued st' => exact absurd hs (hstep st')
    · cases hs : execStep J now resp st with
      | terminated ret st' =>
        rw [hs] at hgood
        simp only [execRun, hs, runOutMsgs]
        exact hgood.2
      | raised e st' =>
        rw [hs] at hgood
        simp only [execRun, hs, runOutMsgs]
        exact hgood.2
      | continued st' => exact absurd hs (hstep st')

/-- Witness for C1 at a concrete sentinel-bearing turn. -/
theorem c1_witness :
    (protoRun sampleJson "t0" [respSentinel] protoSt0 =
      some (protoSt0.messages ++ [protoAssistantMsg respSentinel],
        { messages := protoSt0.messages ++ [protoAssistantMsg respSentinel],
          messageList := (protoSt0.messageList ++ [Event.assistant respSentinel.content]) ++
            [Event.contextEv protoSt0.ctx],
          ctx := protoSt0.ctx }) ∧
      (protoSt0.messages ++ [protoAssistantMsg respSentinel]).filter
          (fun m => m.role == "tool") =
        protoSt0.messages.filter (fun m => m.role == "tool")) ∧
    (execRun sampleJson "t0" [respSentinel] execSt0 =
      execRun sampleJson "t0" [respSentinel] execSt0 ∧
      (∀ e ∈ runOutLog (execRun sampleJson "t0" [respSentinel] execSt0),
        e ∈ execSt0.messageList ∨ isProcCompleteCall e = false) ∧
      (∀ m ∈ runOutMsgs (execRun sampleJson "t0" [respSentinel] execSt0),
        m ∈ execSt0.messages ∨ m.name ≠ some "processing_complete")) :=
  ⟨(c1_sentinel_terminates_without_execution sampleJson "t0" respSentinel [] protoSt0).1
      (by decide),
   (c1_sentinel_terminates_without_execution sampleJson "t0" respSentinel [] execSt0).2
      (by decide)⟩

/-- C2, counterexample: in the prototype loop a response with no tool-call
requests does NOT terminate the run; the script is exhausted with the loop
still awaiting the next model response instead of returning the transcript. -/
theorem c2_counterexample :
    protoRun sampleJson "t0" [respNoTools] protoSt0 = none := rfl

/-- C2, amended: in `PolicyExecutor.execute_plan` a response with no
tool-call requests terminates the loop and returns the accumulated message
list; in the prototype `execute_plan` such a response is silently skipped
and the loop continues with the next model response. -/
theorem c2_no_tool_calls_behaviour (J : PyJson) (now : String)
    (resp : ModelResponse) (script : List ModelResponse) (st : LoopState)
    (h : resp.toolCalls = []) :
    execRun J now (resp :: script) st =
      some (RunOut.returned st.messageList
        { st with messages := st.messages ++ [execAssistantMsg resp] }) ∧
    protoRun J now (resp :: script) st =
      protoRun J now script
        { st with
          messages := st.messages ++ [protoAssistantMsg resp],
          messageList := st.messageList ++ [Event.assistant resp.content] } := by
  have hempty : resp.toolCalls.isEmpty = true := by rw [h]; rfl
  constructor
  · simp only [execRun, execStep, hempty, if_true]
  · simp only [protoRun, protoStep, hempty, if_true]

/-- Witness for C2's amended statement at a concrete no-tool-call turn. -/
theorem c2_witness :
    execRun sampleJson "t0" [respNoTools] execSt0 =
      some (RunOut.returned execSt0.messageList
        { execSt0 with messages := execSt0.messages ++ [execAssistantMsg respNoTools] }) ∧
    protoRun sampleJson "t0" [respNoTools] execSt0 =
      protoRun sampleJson "t0" []
        { execSt0 with
          messages := execSt0.messages ++ [protoAssistantMsg respNoTools],
          messageList := execSt0.messageList ++ [Event.assistant respNoTools.content] } :=
  c2_no_tool_calls_behaviour sampleJson "t0" respNoTools [] execSt0 rfl

/-- C3: evaluating both variants on a turn that requests the unregistered
name `update_inventory`.  The prototype recovers it into a structured
`function not implemented` error payload fed back as the call's tool result
and continues; `PolicyExecutor.execute_plan` performs an unguarded
`function_mapping[function_name]` lookup and the run aborts with an uncaught
`KeyError` — contradicting the specified never-fatal dispatch. -/
theorem c3_unknown_function_crashes_executor :
    execRun sampleJson "t0" [respUnknown] execSt0 =
      some (RunOut.raised (PyErr.keyError "update_inventory")
        { messages := execSt0.messages ++ [execAssistantMsg respUnknown],
          messageList := execSt0.messageList ++
            [Event.functionCall "update_inventory" []],
          ctx := default_context }) ∧
    protoStep sampleJson "t0" respUnknown protoSt0 =
      ProtoResult.continued
        { messages := (protoSt0.messages ++ [protoAssistantMsg respUnknown]) ++
            [{ role := "tool", tool_call_id := some "u1",
               content := some "\x7b\"error\": \"Function \x27update_inventory\x27 not implemented.\"\x7d" }],
          messageList := ((protoSt0.messageList ++
            [Event.assistant (some "I will update the inventory.")]) ++
            [Event.toolCall "update_inventory" "\x7b\x7d"]) ++
            [Event.toolResponse "update_inventory"
              "\x7b\"error\": \"Function \x27update_inventory\x27 not implemented.\"\x7d"],
          ctx := default_context } :=
  ⟨rfl, rfl⟩

/-- C4, counterexample: a tool call whose `rawArguments` fail to parse.  The
prototype does not crash, but no error payload is fed back either: the call
is skipped (`continue`), the resulting state carries no tool message at all,
and the executor variant raises an uncaught JSON decode error. -/
theorem c4_counterexample :
    protoStep sampleJson "t0" respBadArgs protoSt0 =
      ProtoResult.continued
        { messages := protoSt0.messages ++ [protoAssistantMsg respBadArgs],
          messageList := (protoSt0.messageList ++
            [Event.assistant (some "Allocating now.")]) ++
            [Event.toolCall "allocate_inventory" "not json"],
          ctx := default_context } ∧
    (ProtoResult.state (protoStep sampleJson "t0" respBadArgs protoSt0)).messages.filter
        (fun m => m.role == "tool") = [] ∧
    execStep sampleJson "t0" respBadArgs execSt0 =
      StepResult.raised PyErr.jsonDecodeError
        { messages := execSt0.messages ++ [execAssistantMsg respBadArgs],
          messageList := execSt0.messageList,
          ctx := default_context } :=
  ⟨rfl, rfl, rfl⟩

/-- C4, amended: for every tool-call request whose `rawArguments` string is
not parseable, the prototype dispatch does not crash — the parse failure is
recovered locally by skipping the call, with only the `tool_call` log event
recorded and no tool result fed back for that call — while
`PolicyExecutor`'s dispatch raises an uncaught JSON decode error. -/
theorem c4_parse_failure_skips_call (J : PyJson) (now : String) (c : ToolCall)
    (rest : List ToolCall) (st : LoopState)
    (hparse : J.loads c.arguments = none)
    (hsent : c.functionName ≠ "processing_complete") :
    protoDispatch J now (c :: rest) st =
      protoDispatch J now rest
        { st with messageList := st.messageList ++
            [Event.toolCall c.functionName c.arguments] } ∧
    execDispatch J now (c :: rest) st = StepResult.raised PyErr.jsonDecodeError st := by
  have hcb : (c.functionName == "processing_complete") = false :=
    beq_eq_false_iff_ne.mpr hsent
  constructor
  · simp only [protoDispatch, protoDispatchStep, hparse]
  · simp only [execDispatch, execDispatchStep, hcb, Bool.false_eq_true, if_false, hparse]

/-- Witness for C4's amended statement at the concrete malformed call. -/
theorem c4_witness :
    protoDispatch sampleJson "t0" [badCall] protoSt0 =
      protoDispatch sampleJson "t0" []
        { protoSt0 with messageList := protoSt0.messageList ++
            [Event.toolCall badCall.functionName badCall.arguments] } ∧
    execDispatch sampleJson "t0" [badCall] protoSt0 =
      StepResult.raised PyErr.jsonDecodeError protoSt0 :=
  c4_parse_failure_skips_call sampleJson "t0" badCall [] protoSt0 rfl (by decide)

theorem mem_required_sub (doc : String) :
    ∀ (ps : List PyParam) (n : String),
      n ∈ (extractParams doc ps).2 → n ∈ ps.map PyParam.name := by
  intro ps
  induction ps with
  | nil => intro n hn; simp [extractParams] at hn
  | cons p rest ih =>
    intro n hn
    simp only [extractParams] at hn
    by_cases hself : p.name == "self"
    · rw [if_pos hself] at hn
      exact List.mem_cons_of_mem _ (ih n hn)
    · rw [if_neg hself] at hn
      simp only [List.map_cons, List.mem_cons]
      by_cases hd : p.hasDefault
      · simp only [hd, if_true] at hn
        exact Or.inr (ih n hn)
      · simp only [hd, Bool.false_eq_true, if_false, List.mem_cons] at hn
        rcases hn with rfl | hn
        · exact Or.inl rfl
        · exact Or.inr (ih n hn)

theorem mem_required_iff (doc : String) :
    ∀ (ps : List PyParam), (ps.map PyParam.name).Nodup →
      ∀ p ∈ ps, p.name ≠ "self" →
        (p.name ∈ (extractParams doc ps).2 ↔ p.hasDefault = false) := by
  intro ps
  induction ps with
  | nil => intro _ p hp; simp at hp
  | cons q rest ih =>
    intro hnd p hp hself
    have hnd2 : (rest.map PyParam.name).Nodup := by
      simp only [List.map_cons, List.nodup_cons] at hnd
      exact hnd.2
    have hqnotin : q.name ∉ rest.map PyParam.name := by
      simp only [List.map_cons, List.nodup_cons] at hnd
      exact hnd.1
    rcases List.mem_cons.mp hp with rfl | hp2
    · have hpb : (p.name == "self") = false := beq_eq_false_iff_ne.mpr hself
      simp only [extractParams, hpb, Bool.false_eq_true, if_false]
      by_cases hd : p.hasDefault
      · simp only [hd, if_true]
        constructor
        · intro hmem
          exact absurd (mem_required_sub doc rest p.name hmem) hqnotin
        · intro hfalse
          exact absurd hfalse (by simp)
      · simp only [hd, Bool.false_eq_true, if_false]
        constructor
        · intro _
          trivial
        · intro _
          exact List.mem_cons_self _ _
    · have hpn_ne : p.name ≠ q.name := by
        intro he
        exact hqnotin (he ▸ List.mem_map.mpr ⟨p, hp2, rfl⟩)
      by_cases hqself : q.name == "self"
      · simp only [extractParams, hqself, if_true]
        exact ih hnd2 p hp2 hself
      · simp only [extractParams, hqself, Bool.false_eq_true, if_false]
        by_cases hd : q.hasDefault
        · simp only [hd, if_true]
          exact ih hnd2 p hp2 hself
        · simp only [hd, Bool.false_eq_true, if_false, List.mem_cons]
          constructor
          · rintro (he | hmem)
            · exact absurd he hpn_ne
            · exact (ih hnd2 p hp2 hself).mp hmem
          · intro h2
            exact Or.inr ((ih hnd2 p hp2 hself).mpr h2)

theorem lookup_props (doc : String) :
    ∀ (ps : List PyParam), (ps.map PyParam.name).Nodup →
      ∀ p ∈ ps, p.name ≠ "self" →
        (extractParams doc ps).1.lookup p.name = some (mkProperty doc p) := by
  intro ps
  induction ps with
  | nil => intro _ p hp; simp at hp
  | cons q rest ih =>
    intro hnd p hp hself
    have hnd2 : (rest.map PyParam.name).Nodup := by
      simp only [List.map_cons, List.nodup_cons] at hnd
      exact hnd.2
    have hqnotin : q.name ∉ rest.map PyParam.name := by
      simp only [List.map_cons, List.nodup_cons] at hnd
      exact hnd.1
    rcases List.mem_cons.mp hp with rfl | hp2
    · have hpb : (p.name == "self") = false := beq_eq_false_iff_ne.mpr hself
      simp only [extractParams, hpb, Bool.false_eq_true, if_false]
      simp [List.lookup]
    · have hpn_ne : p.name ≠ q.name := by
        intro he
        exact hqnotin (he ▸ List.mem_map.mpr ⟨p, hp2, rfl⟩)
      by_cases hqself : q.name == "self"
      · simp only [extractParams, hqself, if_true]
        exact ih hnd2 p hp2 hself
      · simp only [extractParams, hqself, Bool.false_eq_true, if_false]
        have hne2 : (p.name == q.name) = false := beq_eq_false_iff_ne.mpr hpn_ne
        simp only [List.lookup, hne2]
        exact ih hnd2 p hp2 hself

/-- C5: for every registered function (any signature with distinct parameter
names), a non-`self` parameter appears in the generated `required` list iff
it has no default value, its generated property entry exists and carries a
recognized JSON type, and a parameter without annotation is typed string. -/
theorem c5_required_and_types (f : PyFunc)
    (hnd : (f.params.map PyParam.name).Nodup) :
    ∀ p ∈ f.params, p.name ≠ "self" →
      (p.name ∈ (extract_function_metadata f).parameters.required ↔
        p.hasDefault = false) ∧
      (extract_function_metadata f).parameters.properties.lookup p.name =
        some (mkProperty f.doc p) ∧
      propType (extract_function_metadata f) p.name ∈ jsonTypes ∧
      (p.annot = none → propType (extract_function_metadata f) p.name = "string") := by
  intro p hp hself
  have hlook := lookup_props f.doc f.params hnd p hp hself
  have hty : propType (extract_function_metadata f) p.name = get_param_type p.annot := by
    simp only [propType, extract_function_metadata]
    rw [hlook]
    rfl
  refine ⟨mem_required_iff f.doc f.params hnd p hp hself, hlook, ?_, ?_⟩
  · rw [hty]
    rcases hann : p.annot with _ | t
    · simp [get_param_type, jsonTypes]
    · cases t <;> simp [get_param_type, jsonTypes]
  · intro hnone
    rw [hty, hnone]
    rfl

/-- Witness for C5 at the registered `allocate_inventory` and its `quantity`
parameter. -/
theorem c5_witness :
    (quantity_param.name ∈
        (extract_function_metadata allocate_inventory_py).parameters.required ↔
      quantity_param.hasDefault = false) ∧
    (extract_function_metadata allocate_inventory_py).parameters.properties.lookup
        quantity_param.name =
      some (mkProperty allocate_inventory_py.doc quantity_param) ∧
    propType (extract_function_metadata allocate_inventory_py) quantity_param.name ∈
      jsonTypes ∧
    (quantity_param.annot = none →
      propType (extract_function_metadata allocate_inventory_py) quantity_param.name =
        "string") :=
  c5_required_and_types allocate_inventory_py (by decide) quantity_param
    (by decide) (by decide)

/-- C6: the registered `check_inventory` documents an enum for `sku` with
the `:enum sku: SKU001,SKU002,SKU003` convention, and the inner extraction
would yield exactly those trimmed values, yet the registry attaches no enum
constraint: its guard tests for the literal substring `":enum:"`, which the
documented `:enum <name>:` convention never produces. -/
theorem c6_enum_constraint_never_attached :
    pyContains checkInventoryDoc ":enum sku: SKU001,SKU002,SKU003" = true ∧
    findEnum checkInventoryDoc "sku" = some ["SKU001", "SKU002", "SKU003"] ∧
    pyContains checkInventoryDoc ":enum:" = false ∧
    propEnum (extract_function_metadata check_inventory_py) "sku" = none :=
  ⟨rfl, rfl, rfl, rfl⟩

/-- C7: with SKU001 stock at 100, allocating 30 reduces the stock to 70 and
reports `allocated: 30`; a subsequent allocation of 200 reports
`allocated: 0` with an insufficiency error and leaves the whole context,
including the SKU001 stock of 70, unchanged. -/
theorem c7_allocation_boundary :
    allocate_inventory "ORD001" "SKU001" 30 default_context =
      Except.ok
        (Value.vobj [("order_id", Value.vstr "ORD001"), ("allocated", Value.vint 30)],
         { default_context with
           inventory := [("SKU001", 70), ("SKU002", 75), ("SKU003", 50)] }) ∧
    allocate_inventory "ORD002" "SKU001" 200
        { default_context with
          inventory := [("SKU001", 70), ("SKU002", 75), ("SKU003", 50)] } =
      Except.ok
        (Value.vobj [("order_id", Value.vstr "ORD002"), ("allocated", Value.vint 0),
                     ("error", Value.vstr "Insufficient inventory")],
         { default_context with
           inventory := [("SKU001", 70), ("SKU002", 75), ("SKU003", 50)] }) :=
  ⟨rfl, rfl⟩

/-- C8: dispatch within a turn is strictly sequential in the order returned,
in both variants: dispatching a concatenation equals dispatching the first
calls and feeding the resulting state into the rest.  Concretely, a pair of
same-turn calls in which the second allocation of 150 units is valid only
after the first call's mutation succeeds (final SKU001 stock 0), while the
second call alone leaves stock at 100, and the log records the two calls in
order with their responses. -/
theorem c8_sequential_same_turn_dispatch :
    (∀ (J : PyJson) (now : String) (xs ys : List ToolCall) (st : LoopState),
      protoDispatch J now (xs ++ ys) st =
        protoDispatch J now ys (protoDispatch J now xs st)) ∧
    (∀ (J : PyJson) (now : String) (xs ys : List ToolCall) (st : LoopState),
      execDispatch J now (xs ++ ys) st =
        StepResult.andThen (execDispatch J now xs st) (execDispatch J now ys)) ∧
    (protoDispatch sampleJson "t0" [c8call1, c8call2] protoSt0).ctx.inventory.lookup
      "SKU001" = some 0 ∧
    (protoDispatch sampleJson "t0" [c8call2] protoSt0).ctx.inventory.lookup
      "SKU001" = some 100 ∧
    (protoDispatch sampleJson "t0" [c8call1, c8call2] protoSt0).messageList =
      protoSt0.messageList ++
        [Event.toolCall "allocate_inventory" c8call1.arguments,
         Event.toolResponse "allocate_inventory"
           "\x7b\"order_id\": \"ORD001\", \"allocated\": -50\x7d",
         Event.toolCall "allocate_inventory" c8call2.arguments,
         Event.toolResponse "allocate_inventory"
           "\x7b\"order_id\": \"ORD002\", \"allocated\": 150\x7d"] :=
  ⟨protoDispatch_append, execDispatch_append, rfl, rfl, rfl⟩

/-- C9: saving a plan under a filename and loading by the same filename
yields the stored plan back, equal in particular in its `scenario`,
`plan_text` and `model_used` fields. -/
theorem c9_save_load_roundtrip (p : Plan) (filename timestamp : String)
    (store : List (String × Plan)) :
    Plan.load filename (Plan.save p (some filename) timestamp store).2 = some p ∧
    (Plan.load filename (Plan.save p (some filename) timestamp store).2).map
      Plan.scenario = some p.scenario ∧
    (Plan.load filename (Plan.save p (some filename) timestamp store).2).map
      Plan.plan_text = some p.plan_text ∧
    (Plan.load filename (Plan.save p (some filename) timestamp store).2).map
      Plan.model_used = some p.model_used := by
  have h : Plan.load filename (Plan.save p (some filename) timestamp store).2 = some p := by
    simp only [Plan.load, Plan.save, Option.getD]
    exact lookup_setA store ("run_results/plans/" ++ filename) p
  exact ⟨h, by rw [h]; rfl, by rw [h]; rfl, by rw [h]; rfl⟩

theorem applyAlloc_nonneg (now o s : String) (q : Int) (c : Ctx) (h : CtxNonneg c) :
    CtxNonneg (applyBizCall now c (BizCall.alloc o s q)) := by
  simp only [applyBizCall, allocate_inventory]
  by_cases hq : q ≤ (c.inventory.lookup s).getD 0
  · simp only [hq, if_true]
    cases hl : c.inventory.lookup s with
    | none => exact h
    | some v =>
      dsimp only
      refine ⟨fun p hp => ?_, h.2⟩
      rcases mem_setA _ _ _ _ hp with rfl | hp2
      · have hv : (c.inventory.lookup s).getD 0 = v := by rw [hl]; rfl
        rw [hv] at hq
        simpa using Int.sub_nonneg.mpr hq
      · exact h.1 p hp2
  · simp only [hq, if_false]
    exact h

theorem applySched_nonneg (now o pr : String) (c : Ctx) (h : CtxNonneg c) :
    CtxNonneg (applyBizCall now c (BizCall.sched o pr)) := by
  simp only [applyBizCall, schedule_processing]
  by_cases hp : 0 < c.processing
  · simp only [hp, if_true]
    refine ⟨h.1, ?_⟩
    show 0 ≤ c.processing - 1
    omega
  · simp only [hp, if_false]
    exact h

/-- C10: from any state whose inventory levels and processing capacity are
non-negative, every sequence of `allocate_inventory` and
`schedule_processing` calls with arbitrary arguments preserves
non-negativity: `allocate_inventory` mutates only when the available stock
is at least the requested quantity, and `schedule_processing` decrements
capacity only when it is strictly positive. -/
theorem c10_nonneg_invariant (now : String) (cs : List BizCall) (c : Ctx)
    (h : CtxNonneg c) : CtxNonneg (runBizCalls now cs c) := by
  induction cs generalizing c with
  | nil => exact h
  | cons x rest ih =>
    have hx : CtxNonneg (applyBizCall now c x) := by
      cases x with
      | alloc o s q => exact applyAlloc_nonneg now o s q c h
      | sched o p => exact applySched_nonneg now o p c h
    simpa [runBizCalls, List.foldl_cons] using ih (applyBizCall now c x) hx

/-- Witness for C10 on the default context and a concrete call sequence
(including an over-allocation and an unknown SKU). -/
theorem c10_witness :
    CtxNonneg default_context ∧
    CtxNonneg (runBizCalls "t0"
      [BizCall.alloc "ORD001" "SKU001" 30, BizCall.sched "ORD001" "Express",
       BizCall.alloc "ORD002" "SKU001" 500, BizCall.alloc "ORD003" "SKUX" (-5)]
      default_context) :=
  ⟨⟨by decide, by decide⟩,
   c10_nonneg_invariant "t0"
     [BizCall.alloc "ORD001" "SKU001" 30, BizCall.sched "ORD001" "Express",
      BizCall.alloc "ORD002" "SKU001" 500, BizCall.alloc "ORD003" "SKUX" (-5)]
     default_context ⟨by decide, by decide⟩⟩

end OrderFulfillment
